import Mathlib

-- Verification development for the rudder-server jobsdb / multitenant core.
--
-- The multitenant planner (GetRouterPickupJobs and the in-memory job counters)
-- is embedded from the Go source of the multitenant package.  Go float64
-- arithmetic is modelled by rationals, Go durations (time.Duration) by integer
-- nanosecond counts, and Go map reads (missing key yields the zero value) by
-- total functions.  Conversions from float64 to integer types truncate toward
-- zero, which goTrunc mirrors.  The pickup map is modelled by an association
-- list with Go map semantics (getCount / setCount / eraseCount / addCount).

def nsPerSec : ℚ := 1000000000

-- Go conversion of a float64 to an integer type truncates toward zero.
def goTrunc (q : ℚ) : ℤ := if 0 ≤ q then ⌊q⌋ else -⌊-q⌋

abbrev PickMap := List (String × ℤ)

def getCount : PickMap → String → ℤ
  | [], _ => 0
  | (k, v) :: rest, t => if k = t then v else getCount rest t

def setCount : PickMap → String → ℤ → PickMap
  | [], t, v => [(t, v)]
  | (k, w) :: rest, t, v => if k = t then (t, v) :: rest else (k, w) :: setCount rest t v

def eraseCount : PickMap → String → PickMap
  | [], _ => []
  | (k, w) :: rest, t => if k = t then rest else (k, w) :: eraseCount rest t

def addCount (m : PickMap) (t : String) (v : ℤ) : PickMap :=
  setCount m t (getCount m t + v)

def sumCounts (m : PickMap) : ℤ := (m.map (fun p => p.2)).sum

structure PlannerState where
  picks : PickMap
  runningJobCount : ℤ
  runningTimeCounter : ℚ

-- Inputs of GetRouterPickupJobs.  latencyMap and inRate carry the Value() of
-- the moving averages; pending is RouterInMemoryJobCounts["router"]; now and
-- lastDrained model time.Now() and the lastDrainedTimestamps map (absent key
-- is the zero time, as in getLastDrainedTimestamp).  The earliestJobMap,
-- successRateMap and drainedMap arguments of the source are not read by the
-- live body (only by commented-out code) and are omitted.
structure PlannerInput where
  destType : String
  sortedLatencyList : List String
  noOfWorkers : ℤ
  routerTimeOut : ℤ
  latencyMap : String → ℚ
  inRate : String → String → Option ℚ
  pending : String → String → ℤ
  lastDrained : String → Option ℤ
  now : ℤ
  jobQueryBatchSize : ℤ

def getLastDrainedTimestamp (lastDrained : String → Option ℤ) (t : String) : ℤ :=
  (lastDrained t).getD 0

-- The deprioritisation loop of GetRouterPickupJobs: a tenant drained less
-- than 10*routerTimeOut ago goes to the deprioritised list, every other
-- tenant to the final (prioritised) list, in input order.
def splitByDrain (now rto : ℤ) (lastDrained : String → Option ℤ) :
    List String → List String × List String
  | [] => ([], [])
  | t :: ts =>
    let rest := splitByDrain now rto lastDrained ts
    if now - getLastDrainedTimestamp lastDrained t < 10 * rto then (rest.1, t :: rest.2)
    else (t :: rest.1, rest.2)

-- finalList together with depriorityIndicator: prioritised tenants first
-- (flag false), then the deprioritised tenants (flag true).
def annotatedList (inp : PlannerInput) : List (String × Bool) :=
  let pr := splitByDrain inp.now inp.routerTimeOut inp.lastDrained inp.sortedLatencyList
  pr.1.map (fun t => (t, false)) ++ pr.2.map (fun t => (t, true))

-- boostedRouterTimeOut := time.Duration(1.3 * float64(routerTimeOut))
def boostedOf (rto : ℤ) : ℤ := goTrunc ((13 : ℚ) / 10 * (rto : ℚ))

def pass1TimeGiven (boosted rto : ℤ) (dep : Bool) : ℤ := if dep then rto else boosted

-- The per-tenant pickup of the in-rate pass (pass 1), with the unreliable
-- flag.  With a nonzero latency the candidate is the truncated minimum of the
-- rate-driven and the time-budget candidates, floored at 1 (marking the
-- tenant unreliable) and clamped at the pending count (but never below 0).
-- With zero latency it is the minimum of the rate-driven candidate and the
-- pending count.
def pass1Pick (timeGiven : ℤ) (rate latency : ℚ) (pending : ℤ) (rtc : ℚ) : ℤ × Bool :=
  if latency ≠ 0 then
    let tmp := goTrunc (min (rate * (timeGiven : ℚ) / nsPerSec) (rtc / latency))
    let pu := if tmp < 1 then ((1 : ℤ), true) else (tmp, false)
    if pu.1 > pending then (max pending 0, pu.2) else pu
  else
    (min (goTrunc (rate * (timeGiven : ℚ) / nsPerSec)) pending, false)

def pass1TimeRequired (pick : ℤ) (unreliable : Bool) (latency : ℚ) : ℚ :=
  if unreliable then 0 else (pick : ℚ) * latency

-- One iteration of the in-rate pass.  A tenant without an in-rate entry for
-- destType is skipped.  With the budget exhausted a tenant with pending jobs
-- is credited a pickup of 1 and the loop continues.  A pickup of 0 is
-- deleted from the map, as in the source.
def pass1Step (destType : String) (boosted rto : ℤ) (inRate : String → String → Option ℚ)
    (latency : String → ℚ) (pending : String → String → ℤ)
    (st : PlannerState) (e : String × Bool) : PlannerState :=
  match inRate e.1 destType with
  | none => st
  | some rate =>
    if st.runningJobCount ≤ 0 ∨ st.runningTimeCounter ≤ 0 then
      if 0 < pending e.1 destType then
        { st with picks := setCount st.picks e.1 1 }
      else st
    else
      let timeGiven := pass1TimeGiven boosted rto e.2
      let pu := pass1Pick timeGiven rate (latency e.1) (pending e.1 destType) st.runningTimeCounter
      let timeRequired := pass1TimeRequired pu.1 pu.2 (latency e.1)
      { picks := if pu.1 = 0 then eraseCount st.picks e.1 else setCount st.picks e.1 pu.1,
        runningJobCount := st.runningJobCount - pu.1,
        runningTimeCounter := st.runningTimeCounter - timeRequired }

def pass1 (destType : String) (boosted rto : ℤ) (inRate : String → String → Option ℚ)
    (latency : String → ℚ) (pending : String → String → ℤ) :
    List (String × Bool) → PlannerState → PlannerState
  | [], st => st
  | e :: rest, st =>
    pass1 destType boosted rto inRate latency pending rest
      (pass1Step destType boosted rto inRate latency pending st e)

-- The pile-up pass (pass 2).  Note: both branches subtract
-- getCount st.picks destType, an index by the destination type into the
-- per-tenant pickup map, exactly as the source subtracts
-- customerPickUpCount[destType]; see the C1 theorem.
def pass2 (destType : String) (latency : String → ℚ) (pending : String → String → ℤ) :
    List String → PlannerState → PlannerState
  | [], st => st
  | ck :: rest, st =>
    if pending ck destType = 0 then pass2 destType latency pending rest st
    else if st.runningJobCount ≤ 0 ∨ st.runningTimeCounter ≤ 0 then st
    else
      let timeRequired := latency ck * (pending ck destType : ℚ)
      if timeRequired < st.runningTimeCounter then
        let pickUpCount := min (pending ck destType - getCount st.picks destType) st.runningJobCount
        pass2 destType latency pending rest
          { picks := addCount st.picks ck pickUpCount,
            runningJobCount := st.runningJobCount - pickUpCount,
            runningTimeCounter := st.runningTimeCounter - (pickUpCount : ℚ) * latency ck }
      else
        let tp := goTrunc (st.runningTimeCounter / latency ck)
        let pileupPickUp :=
          min (min tp st.runningJobCount) (pending ck destType - getCount st.picks destType)
        pass2 destType latency pending rest
          { picks := addCount st.picks ck pileupPickUp,
            runningJobCount := st.runningJobCount - pileupPickUp,
            runningTimeCounter := st.runningTimeCounter - (pileupPickUp : ℚ) * latency ck }

def initState (inp : PlannerInput) : PlannerState :=
  { picks := [],
    runningJobCount := inp.jobQueryBatchSize,
    runningTimeCounter :=
      (inp.noOfWorkers : ℚ) * ((boostedOf inp.routerTimeOut : ℤ) : ℚ) / nsPerSec }

def pass1Run (inp : PlannerInput) (l : List (String × Bool)) (st : PlannerState) : PlannerState :=
  pass1 inp.destType (boostedOf inp.routerTimeOut) inp.routerTimeOut inp.inRate inp.latencyMap
    inp.pending l st

def pass1State (inp : PlannerInput) : PlannerState :=
  pass1Run inp (annotatedList inp) (initState inp)

def GetRouterPickupJobs (inp : PlannerInput) : PickMap :=
  (pass2 inp.destType inp.latencyMap inp.pending
    ((annotatedList inp).map (fun e => e.1)) (pass1State inp)).picks

-- The prioritisation predicate: at least 10*routerTimeOut since the last
-- drained timestamp (the zero time when the tenant was never drained).
def prioP (now rto : ℤ) (lastDrained : String → Option ℤ) (t : String) : Bool :=
  decide (10 * rto ≤ now - getLastDrainedTimestamp lastDrained t)

-- In-memory job counters of the multitenant package, modelled pointwise:
-- RouterInMemoryJobCounts[tableType][customerID][destinationType], with a Go
-- map read of a missing key giving 0.
abbrev JobCounts := String → String → String → ℤ

def AddToInMemoryCount (customerID destinationType : String) (count : ℤ) (tableType : String)
    (m : JobCounts) : JobCounts :=
  fun tt cid dt =>
    if tt = tableType ∧ cid = customerID ∧ dt = destinationType then m tt cid dt + count
    else m tt cid dt

def RemoveFromInMemoryCount (customerID destinationType : String) (count : ℤ) (tableType : String)
    (m : JobCounts) : JobCounts :=
  fun tt cid dt =>
    if tt = tableType ∧ cid = customerID ∧ dt = destinationType then m tt cid dt + (-1) * count
    else m tt cid dt

-- Dataset index arithmetic.  The implementations of computeInsertIdx and
-- computeIdxForClusterMigration are not under src (only their tests are), so
-- they are modelled from the spec, section 4.1.  Indices are non-empty lists
-- of non-negative integer levels rendered with an underscore separator;
-- strings are parsed on the character-list level so every definition is
-- executable by the kernel.

def sepChar : Char := '_'

def sepU : String := "_"

def splitUnders : List Char → List (List Char)
  | [] => [[]]
  | c :: cs =>
    let rest := splitUnders cs
    if c = sepChar then [] :: rest
    else
      match rest with
      | [] => [[c]]
      | p :: ps => (c :: p) :: ps

def digitVal (c : Char) : Option ℕ :=
  if c.isDigit then some (c.toNat - 48) else none

def parseNatChars (cs : List Char) : Option ℕ :=
  if cs.isEmpty then none
  else
    cs.foldl
      (fun acc c =>
        match acc, digitVal c with
        | some a, some d => some (10 * a + d)
        | _, _ => none)
      (some 0)

def parseLevels : List (List Char) → Option (List ℕ)
  | [] => some []
  | p :: ps =>
    match parseNatChars p, parseLevels ps with
    | some n, some ns => some (n :: ns)
    | _, _ => none

def parseIdx (s : String) : Option (List ℕ) := parseLevels (splitUnders s.data)

def renderIdx (l : List ℕ) : String := sepU.intercalate (l.map Nat.repr)

def levelCount (s : String) : ℕ := (splitUnders s.data).length

-- Increment the last level of an index.
def incLast : List ℕ → List ℕ
  | [] => []
  | [x] => [x + 1]
  | x :: y :: rest => x :: incLast (y :: rest)

-- Modelled from the spec, section 4.1: the level list of the index inserted
-- between two consecutive indices.  Equal level counts append a level 1;
-- a before with more levels has its last level incremented; an after with
-- more levels appends a level 1 to before.
def computeInsertVals (bl al : List ℕ) : List ℕ :=
  if al.length < bl.length then incLast bl else bl ++ [1]

def errBadIdx : String := "invalid dataset index"

/-- Modelled from the spec: `computeInsertIdx` (its implementation is not
under src, only its tests), section 4.1.  Produces the index of a dataset
inserted between `before` and `after` and rejects malformed (non-numeric)
inputs with an error. -/
def computeInsertIdx (before after : String) : Except String String :=
  match parseIdx before, parseIdx after with
  | some bl, some al => Except.ok (renderIdx (computeInsertVals bl al))
  | _, _ => Except.error errBadIdx

-- Is the empty index, extended with virtual zeros, strictly below v?
def idxNilLt : List ℕ → Bool
  | [] => false
  | b :: bs => if 0 < b then true else idxNilLt bs

-- The level-wise numeric ordering of section 4.1: compare level by level as
-- integers, extending the shorter index with virtual zeros.  A nonempty
-- index is never strictly below the empty extension (its virtual zeros can
-- only tie), which makes the second equation sound.
def idxLtB : List ℕ → List ℕ → Bool
  | [], v => idxNilLt v
  | _ :: as, [] => idxLtB as []
  | a :: as, b :: bs => if a < b then true else if b < a then false else idxLtB as bs

def errEmptyList : String := "empty dataset list"

def errTooManyLevels : String := "index has too many levels"

def errClash : String := "index clashes with an existing nested index"

def emptyStr : String := ""

def levelCountHead : List String → ℕ
  | [] => 0
  | d :: _ => levelCount d

def secondLevelOfZero (d : String) : Option ℕ :=
  match splitUnders d.data with
  | p0 :: p1 :: _ => if parseNatChars p0 = some 0 then parseNatChars p1 else none
  | _ => none

def maxSecondLevel (l : List String) : ℕ :=
  l.foldl
    (fun acc d =>
      match secondLevelOfZero d with
      | some n => max acc n
      | none => acc)
    0

/-- Modelled from the spec: `computeIdxForClusterMigration` (its
implementation is not under src, only its tests), section 4.1.  Fails when
the dataset list is empty, when the target index has more than two levels or
a non-numeric component, or when the target index equals an existing nested
index; otherwise emits `0_1` when the first existing index has a single
level, else `0_(k+1)` for the maximal second level k among existing datasets
with first level 0.  The tablePrefix argument of the source, unused for the
computed index, is omitted; datasets are identified by their Index field. -/
def computeIdxForClusterMigration (dList : List String) (after : String) : Except String String :=
  if dList = [] then Except.error errEmptyList
  else
    match parseIdx after with
    | none => Except.error errBadIdx
    | some al =>
      if 2 < al.length then Except.error errTooManyLevels
      else if ∃ d ∈ dList, d = after ∧ levelCount d = 2 then Except.error errClash
      else if levelCountHead dList = 1 then Except.ok (renderIdx [0, 1])
      else Except.ok (renderIdx [0, maxSecondLevel dList + 1])

-- Storage engine models.  The implementations of UpdateJobStatus and
-- StoreWithRetryEach are not under src (only their sqlmock tests are), so
-- they are modelled from the spec, sections 4.3 and 4.4.  The backend is
-- abstracted by outcome functions; the single transaction is modelled by the
-- Except result: an error carries no written rows (rollback), a success
-- carries every streamed partition (commit).

structure JobStatusM where
  JobID : ℤ
  JobState : String
  AttemptNum : ℤ
  ErrorCode : String
deriving DecidableEq

structure dataSetRangeM where
  minJobID : ℤ
  maxJobID : ℤ
  statusTable : String
deriving DecidableEq

def dsForJob (ranges : List dataSetRangeM) (id : ℤ) : Option String :=
  (ranges.find? (fun r => decide (r.minJobID ≤ id) && decide (id ≤ r.maxJobID))).map
    (fun r => r.statusTable)

-- Partition a status batch by target dataset, in dataset order, keeping only
-- datasets with work; a JobID outside all known ranges is skipped.
def statusPartitions (ranges : List dataSetRangeM) (statuses : List JobStatusM) :
    List (String × List JobStatusM) :=
  (ranges.map
      (fun r => (r.statusTable, statuses.filter (fun s => dsForJob ranges s.JobID = some r.statusTable)))).filter
    (fun p => ¬ p.2.isEmpty)

def copyAll (copyOutcome : String → Except String Unit) :
    List (String × List JobStatusM) → List (String × List JobStatusM) →
      Except String (List (String × List JobStatusM))
  | [], acc => Except.ok acc.reverse
  | (tbl, rows) :: rest, acc =>
    match copyOutcome tbl with
    | Except.ok _ => copyAll copyOutcome rest ((tbl, rows) :: acc)
    | Except.error e => Except.error e

/-- Modelled from the spec: `UpdateJobStatus` (its implementation is not
under src, only its tests), section 4.4.  One transaction spans all affected
datasets; each dataset with work streams its partition through its own
bulk-copy; the first failing stream rolls the whole transaction back (the
error result carries no rows) and its error is returned; on success every
partition is committed. -/
def UpdateJobStatus (ranges : List dataSetRangeM) (copyOutcome : String → Except String Unit)
    (statuses : List JobStatusM) : Except String (List (String × List JobStatusM)) :=
  copyAll copyOutcome (statusPartitions ranges statuses) []

structure JobM where
  uuid : String
  payload : String
deriving DecidableEq

structure RowFailure where
  code : String
  message : String
deriving DecidableEq

def invalidTextRepClass : String := "22P02"

def invalidJSONMsg : String := "Invalid JSON"

-- The per-row fallback INSERT strips the NUL escape sequence from the
-- payload before casting to JSON (regexp_replace of the sequence by the
-- empty string).
def nulSeq : String := "\\u0000"

def stripNulSeq (s : String) : String := s.replace nulSeq emptyStr

def classifyRowError (f : RowFailure) : String :=
  if f.code = invalidTextRepClass then invalidJSONMsg else f.message

-- The per-job fallback loop: each job is retried with a single-row insert
-- over its NUL-stripped payload; a failing row records its classified error
-- under the job's UUID.
def retryEachRow (rowOutcome : JobM → Except RowFailure Unit) :
    List JobM → List (String × String)
  | [] => []
  | j :: rest =>
    match rowOutcome { uuid := j.uuid, payload := stripNulSeq j.payload } with
    | Except.ok _ => retryEachRow rowOutcome rest
    | Except.error f => (j.uuid, classifyRowError f) :: retryEachRow rowOutcome rest

/-- Modelled from the spec: `StoreWithRetryEach` (its implementation is not
under src, only its tests), section 4.3.  When the bulk store succeeds the
returned diagnostics map is empty; otherwise every job is retried with a
single-row insert over the NUL-stripped payload, a failure of the
invalid-text-representation class (pq code 22P02) is recorded as the string
"Invalid JSON" under the job's UUID, and any other failure records its error
text. -/
def StoreWithRetryEach (bulkOutcome : Except String Unit)
    (rowOutcome : JobM → Except RowFailure Unit) (jobs : List JobM) : List (String × String) :=
  match bulkOutcome with
  | Except.ok _ => []
  | Except.error _ => retryEachRow rowOutcome jobs

def storedRowUUIDs (rowOutcome : JobM → Except RowFailure Unit) : List JobM → List String
  | [] => []
  | j :: rest =>
    match rowOutcome { uuid := j.uuid, payload := stripNulSeq j.payload } with
    | Except.ok _ => j.uuid :: storedRowUUIDs rowOutcome rest
    | Except.error _ => storedRowUUIDs rowOutcome rest

-- The UUIDs persisted by StoreWithRetryEach: all of them when the bulk store
-- succeeds, otherwise the jobs whose single-row fallback insert succeeded.
def storedUUIDs (bulkOutcome : Except String Unit) (rowOutcome : JobM → Except RowFailure Unit)
    (jobs : List JobM) : List String :=
  match bulkOutcome with
  | Except.ok _ => jobs.map JobM.uuid
  | Except.error _ => storedRowUUIDs rowOutcome jobs

-- Association-list lemmas for the pickup map.

theorem getCount_setCount (m : PickMap) (k t : String) (v : ℤ) :
    getCount (setCount m k v) t = if k = t then v else getCount m t := by
  induction m with
  | nil => simp [setCount, getCount]
  | cons p rest ih =>
    obtain ⟨k2, w⟩ := p
    by_cases h : k2 = k
    · subst h
      by_cases h2 : k2 = t <;> simp [setCount, getCount, h2]
    · by_cases h2 : k2 = t
      · subst h2
        have hk : ¬ k = k2 := fun hh => h hh.symm
        simp [setCount, getCount, h, hk]
      · simp [setCount, getCount, h, h2, ih]

theorem sumCounts_setCount (m : PickMap) (k : String) (v : ℤ) :
    sumCounts (setCount m k v) = sumCounts m - getCount m k + v := by
  induction m with
  | nil => simp [setCount, sumCounts, getCount]
  | cons p rest ih =>
    obtain ⟨k2, w⟩ := p
    by_cases h : k2 = k <;> simp [setCount, sumCounts, getCount, h] at ih ⊢ <;> omega

theorem sumCounts_addCount (m : PickMap) (k : String) (v : ℤ) :
    sumCounts (addCount m k v) = sumCounts m + v := by
  rw [addCount, sumCounts_setCount]
  omega

-- The total pickup added by the pile-up pass never exceeds the job budget it
-- starts with: every extra is bounded by the running job count, which never
-- ends below zero once a pile-up credit happens.

theorem pass2_sum_le (destType : String) (latency : String → ℚ) (pending : String → String → ℤ) :
    ∀ (l : List String) (st : PlannerState),
      sumCounts (pass2 destType latency pending l st).picks ≤
        sumCounts st.picks + max 0 st.runningJobCount := by
  intro l
  induction l with
  | nil =>
    intro st
    have h2 : (0 : ℤ) ≤ max 0 st.runningJobCount := le_max_left 0 _
    simp only [pass2]
    omega
  | cons ck rest ih =>
    intro st
    simp only [pass2]
    split_ifs with h0 hex hbr
    · exact ih st
    · have h2 : (0 : ℤ) ≤ max 0 st.runningJobCount := le_max_left 0 _
      omega
    · refine le_trans (ih _) ?_
      simp only [sumCounts_addCount]
      have hjc2 : 0 < st.runningJobCount := by
        rcases not_or.mp hex with ⟨h1, _⟩
        omega
      have hle : min (pending ck destType - getCount st.picks destType) st.runningJobCount ≤
          st.runningJobCount := min_le_right _ _
      rcases le_total 0 (st.runningJobCount -
          min (pending ck destType - getCount st.picks destType) st.runningJobCount) with h | h <;>
        rcases le_total (0 : ℤ) st.runningJobCount with h3 | h3 <;>
        simp [max_eq_right, max_eq_left, h, h3] <;> omega
    · refine le_trans (ih _) ?_
      simp only [sumCounts_addCount]
      have hjc2 : 0 < st.runningJobCount := by
        rcases not_or.mp hex with ⟨h1, _⟩
        omega
      have hle : min (min (goTrunc (st.runningTimeCounter / latency ck)) st.runningJobCount)
          (pending ck destType - getCount st.picks destType) ≤ st.runningJobCount :=
        le_trans (min_le_left _ _) (min_le_right _ _)
      generalize (min (min (goTrunc (st.runningTimeCounter / latency ck)) st.runningJobCount)
          (pending ck destType - getCount st.picks destType)) = e at hle ⊢
      rcases le_total 0 (st.runningJobCount - e) with h | h <;>
        rcases le_total (0 : ℤ) st.runningJobCount with h3 | h3 <;>
        simp [max_eq_right, max_eq_left, h, h3] <;> omega

-- Concrete planner inputs used by the C1 and C2 theorems.

def tA : String := "A"

def dT : String := "d"

def c1Input : PlannerInput :=
  { destType := dT
    sortedLatencyList := [tA]
    noOfWorkers := 10
    routerTimeOut := 1000000000
    latencyMap := fun _ => 1
    inRate := fun t d => if t = tA ∧ d = dT then some 2 else none
    pending := fun t d => if t = tA ∧ d = dT then 5 else 0
    lastDrained := fun _ => none
    now := 100000000000
    jobQueryBatchSize := 100 }

/-- C1 (code bug): at `c1Input` tenant A has latency 1 s, pending 5 and is
credited 2 in pass 1, so the claimed pile-up extra is
`min (pending - alreadyPicked) runningJobCount = min (5-2) 98 = 3`, giving a
final count of 5; the code instead subtracts `customerPickUpCount[destType]`
(the pickup map indexed by the destination type, which is 0 here), credits 5
and returns 7, exceeding the tenant's pending count. -/
theorem c1_pass2_already_picked_bug :
    getCount (pass1State c1Input).picks tA = 2 ∧
    c1Input.pending tA dT = 5 ∧
    getCount (GetRouterPickupJobs c1Input) tA = 7 ∧
    ¬ getCount (GetRouterPickupJobs c1Input) tA ≤ c1Input.pending tA dT := by
  refine ⟨?_, by norm_num [c1Input, tA, dT], ?_, ?_⟩ <;>
    norm_num [GetRouterPickupJobs, pass1State, pass1Run, annotatedList, splitByDrain, initState,
      boostedOf, getLastDrainedTimestamp, pass1, pass1Step, pass1TimeGiven, pass1Pick,
      pass1TimeRequired, pass2, goTrunc, nsPerSec, c1Input, tA, dT, getCount, setCount,
      eraseCount, addCount, min_def, max_def] <;> decide

def c2CexInput : PlannerInput :=
  { destType := dT
    sortedLatencyList := [tA]
    noOfWorkers := 1
    routerTimeOut := 1000000000
    latencyMap := fun _ => 0
    inRate := fun t d => if t = tA ∧ d = dT then some 10 else none
    pending := fun t d => if t = tA ∧ d = dT then 5 else 0
    lastDrained := fun _ => none
    now := 100000000000
    jobQueryBatchSize := 1 }

/-- C2 (counterexample): with jobQueryBatchSize 1 and a single zero-latency
tenant with in-rate 10/s and pending 5, pass 1 credits
`min (trunc (10 * 1.3)) 5 = 5` jobs — the in-rate pass caps a pick by the
pending count and the time budget but not by the job budget — so the summed
output 5 exceeds jobQueryBatchSize. -/
theorem c2_sum_exceeds_batch_size_cex :
    ¬ sumCounts (GetRouterPickupJobs c2CexInput) ≤ c2CexInput.jobQueryBatchSize := by
  norm_num [GetRouterPickupJobs, pass1State, pass1Run, annotatedList, splitByDrain, initState,
    boostedOf, getLastDrainedTimestamp, pass1, pass1Step, pass1TimeGiven, pass1Pick,
    pass1TimeRequired, pass2, goTrunc, nsPerSec, c2CexInput, tA, dT, getCount, setCount,
    eraseCount, addCount, sumCounts, min_def, max_def]

/-- C2 (amended): the pile-up pass adds at most the job budget left over from
the in-rate pass, so the summed output is bounded by the pass-1 total plus
`max 0` of the remaining running job count; the bound by jobQueryBatchSize
itself fails because pass-1 picks are not capped by the job budget. -/
theorem c2_planner_sum_bounded_by_leftover_budget (inp : PlannerInput) :
    sumCounts (GetRouterPickupJobs inp) ≤
      sumCounts (pass1State inp).picks + max 0 (pass1State inp).runningJobCount := by
  unfold GetRouterPickupJobs
  exact pass2_sum_le inp.destType inp.latencyMap inp.pending
    ((annotatedList inp).map (fun e => e.1)) (pass1State inp)

/-- C10: RemoveFromInMemoryCount adds exactly the negation of what
AddToInMemoryCount adds to the same (tableType, tenant, destination) counter,
an Add followed by a Remove with the same arguments restores every counter to
its prior value, and neither call changes any other counter. -/
theorem c10_add_remove_in_memory_count :
    ∀ (m : JobCounts) (cid dt : String) (n : ℤ) (tt tt2 cid2 dt2 : String),
      RemoveFromInMemoryCount cid dt n tt m tt2 cid2 dt2 =
        AddToInMemoryCount cid dt (-n) tt m tt2 cid2 dt2 ∧
      RemoveFromInMemoryCount cid dt n tt (AddToInMemoryCount cid dt n tt m) tt2 cid2 dt2 =
        m tt2 cid2 dt2 ∧
      (¬ (tt2 = tt ∧ cid2 = cid ∧ dt2 = dt) →
        AddToInMemoryCount cid dt n tt m tt2 cid2 dt2 = m tt2 cid2 dt2 ∧
        RemoveFromInMemoryCount cid dt n tt m tt2 cid2 dt2 = m tt2 cid2 dt2) := by
  intro m cid dt n tt tt2 cid2 dt2
  refine ⟨?_, ?_, fun h => ⟨?_, ?_⟩⟩ <;>
    simp only [AddToInMemoryCount, RemoveFromInMemoryCount] <;> split_ifs <;>
    first
      | ring
      | rfl
      | simp_all

def wCounts : JobCounts := fun _ _ _ => 7

def wRouter : String := "router"

def wOther : String := "other"

/-- Witness for C10 at a concrete counter state: Add 4 then Remove 4 restores
the (router, A, d) counter, and the (router, A, other) counter is untouched
by the Add. -/
theorem c10_add_remove_in_memory_count_witness :
    RemoveFromInMemoryCount tA dT 4 wRouter (AddToInMemoryCount tA dT 4 wRouter wCounts)
        wRouter tA dT = wCounts wRouter tA dT ∧
    AddToInMemoryCount tA dT 4 wRouter wCounts wRouter tA wOther = wCounts wRouter tA wOther := by
  refine ⟨(c10_add_remove_in_memory_count wCounts tA dT 4 wRouter wRouter tA dT).2.1, ?_⟩
  exact ((c10_add_remove_in_memory_count wCounts tA dT 4 wRouter wRouter tA wOther).2.2
    (by decide)).1

-- Pass-1 structure lemmas used by the C3 theorem.

theorem pass1_append (d : String) (b r : ℤ) (ir : String → String → Option ℚ)
    (lat : String → ℚ) (pe : String → String → ℤ) (l1 l2 : List (String × Bool)) :
    ∀ st, pass1 d b r ir lat pe (l1 ++ l2) st =
      pass1 d b r ir lat pe l2 (pass1 d b r ir lat pe l1 st) := by
  induction l1 with
  | nil => intro st; simp [pass1]
  | cons e rest ih => intro st; simp [pass1, ih]

theorem pass1Step_budget_exhausted (d : String) (b r : ℤ) (ir : String → String → Option ℚ)
    (lat : String → ℚ) (pe : String → String → ℤ) (st : PlannerState) (e : String × Bool)
    (h : st.runningJobCount ≤ 0 ∨ st.runningTimeCounter ≤ 0) :
    (pass1Step d b r ir lat pe st e).runningJobCount = st.runningJobCount ∧
    (pass1Step d b r ir lat pe st e).runningTimeCounter = st.runningTimeCounter ∧
    ∀ t, 1 ≤ getCount st.picks t → 1 ≤ getCount (pass1Step d b r ir lat pe st e).picks t := by
  cases hir : ir e.1 d with
  | none =>
    refine ⟨?_, ?_, fun t ht => ?_⟩ <;> simp only [pass1Step, hir]
    exact ht
  | some rate =>
    by_cases hp : 0 < pe e.1 d
    · refine ⟨?_, ?_, fun t ht => ?_⟩ <;> simp only [pass1Step, hir, if_pos h, if_pos hp]
      rw [getCount_setCount]
      split_ifs with he
      · omega
      · exact ht
    · refine ⟨?_, ?_, fun t ht => ?_⟩ <;> simp only [pass1Step, hir, if_pos h, if_neg hp]
      exact ht

theorem pass1_budget_exhausted (d : String) (b r : ℤ) (ir : String → String → Option ℚ)
    (lat : String → ℚ) (pe : String → String → ℤ) :
    ∀ (l : List (String × Bool)) (st : PlannerState),
      (st.runningJobCount ≤ 0 ∨ st.runningTimeCounter ≤ 0) →
      ((pass1 d b r ir lat pe l st).runningJobCount = st.runningJobCount ∧
       (pass1 d b r ir lat pe l st).runningTimeCounter = st.runningTimeCounter ∧
       ∀ t, 1 ≤ getCount st.picks t → 1 ≤ getCount (pass1 d b r ir lat pe l st).picks t) := by
  intro l
  induction l with
  | nil => intro st h; exact ⟨rfl, rfl, fun t ht => ht⟩
  | cons e rest ih =>
    intro st h
    have hs := pass1Step_budget_exhausted d b r ir lat pe st e h
    have h2 : (pass1Step d b r ir lat pe st e).runningJobCount ≤ 0 ∨
        (pass1Step d b r ir lat pe st e).runningTimeCounter ≤ 0 := by
      rcases h with h | h
      · exact Or.inl (by rw [hs.1]; exact h)
      · exact Or.inr (by rw [hs.2.1]; exact h)
    have hr := ih (pass1Step d b r ir lat pe st e) h2
    refine ⟨?_, ?_, fun t ht => ?_⟩
    · simp only [pass1]
      rw [hr.1, hs.1]
    · simp only [pass1]
      rw [hr.2.1, hs.2.1]
    · simp only [pass1]
      exact hr.2.2 t (hs.2.2 t ht)

theorem pass2_budget_exhausted (d : String) (lat : String → ℚ) (pe : String → String → ℤ) :
    ∀ (l : List String) (st : PlannerState),
      (st.runningJobCount ≤ 0 ∨ st.runningTimeCounter ≤ 0) →
      pass2 d lat pe l st = st := by
  intro l
  induction l with
  | nil => intro st h; rfl
  | cons ck rest ih =>
    intro st h
    by_cases h0 : pe ck d = 0
    · simp only [pass2, if_pos h0]
      exact ih st h
    · simp only [pass2, if_neg h0, if_pos h]

theorem pass1Step_reserve (d : String) (b r : ℤ) (ir : String → String → Option ℚ)
    (lat : String → ℚ) (pe : String → String → ℤ) (st : PlannerState) (t : String) (flag : Bool)
    (q : ℚ) (hir : ir t d = some q) (hp : 0 < pe t d)
    (h : st.runningJobCount ≤ 0 ∨ st.runningTimeCounter ≤ 0) :
    pass1Step d b r ir lat pe st (t, flag) = { st with picks := setCount st.picks t 1 } := by
  simp only [pass1Step, hir, if_pos h, if_pos hp]

/-- C3: a tenant with a positive pending count for destType that is reached
in pass 1 after the job-count or time budget is exhausted (the tenant sits at
position l1.length of the processed list and the state after the prefix l1
has a non-positive running job count or time counter) is assigned a pickup
count of at least 1 in the returned map: the reserve credit of 1 is never
removed, because a once-exhausted budget stays exhausted for the rest of
pass 1 and makes pass 2 a no-op. -/
theorem c3_exhausted_budget_reserves_one (inp : PlannerInput)
    (l1 l2 : List (String × Bool)) (t : String) (flag : Bool) (q : ℚ)
    (hsplit : annotatedList inp = l1 ++ (t, flag) :: l2)
    (hrate : inp.inRate t inp.destType = some q)
    (hpend : 0 < inp.pending t inp.destType)
    (hexh : (pass1Run inp l1 (initState inp)).runningJobCount ≤ 0 ∨
        (pass1Run inp l1 (initState inp)).runningTimeCounter ≤ 0) :
    1 ≤ getCount (GetRouterPickupJobs inp) t := by
  have hstep := pass1Step_reserve inp.destType (boostedOf inp.routerTimeOut) inp.routerTimeOut
    inp.inRate inp.latencyMap inp.pending (pass1Run inp l1 (initState inp)) t flag q hrate hpend
    hexh
  have hfull : pass1State inp =
      pass1 inp.destType (boostedOf inp.routerTimeOut) inp.routerTimeOut inp.inRate inp.latencyMap
        inp.pending l2
        { pass1Run inp l1 (initState inp) with
            picks := setCount (pass1Run inp l1 (initState inp)).picks t 1 } := by
    rw [pass1State, pass1Run, hsplit, pass1_append]
    simp only [pass1]
    rw [← hstep]
    rfl
  have h2exh :
      ({ pass1Run inp l1 (initState inp) with
          picks := setCount (pass1Run inp l1 (initState inp)).picks t 1 } :
        PlannerState).runningJobCount ≤ 0 ∨
      ({ pass1Run inp l1 (initState inp) with
          picks := setCount (pass1Run inp l1 (initState inp)).picks t 1 } :
        PlannerState).runningTimeCounter ≤ 0 := hexh
  have hmain := pass1_budget_exhausted inp.destType (boostedOf inp.routerTimeOut)
    inp.routerTimeOut inp.inRate inp.latencyMap inp.pending l2
    { pass1Run inp l1 (initState inp) with
        picks := setCount (pass1Run inp l1 (initState inp)).picks t 1 } h2exh
  have hget : 1 ≤ getCount (pass1State inp).picks t := by
    rw [hfull]
    refine hmain.2.2 t ?_
    show 1 ≤ getCount (setCount (pass1Run inp l1 (initState inp)).picks t 1) t
    rw [getCount_setCount]
    simp
  have hfexh : (pass1State inp).runningJobCount ≤ 0 ∨
      (pass1State inp).runningTimeCounter ≤ 0 := by
    rcases h2exh with h | h
    · exact Or.inl (by rw [hfull, hmain.1]; exact h)
    · exact Or.inr (by rw [hfull, hmain.2.1]; exact h)
  rw [GetRouterPickupJobs,
    pass2_budget_exhausted inp.destType inp.latencyMap inp.pending
      ((annotatedList inp).map (fun e => e.1)) (pass1State inp) hfexh]
  exact hget

def c3Input : PlannerInput :=
  { destType := dT
    sortedLatencyList := [tA]
    noOfWorkers := 1
    routerTimeOut := 1000000000
    latencyMap := fun _ => 1
    inRate := fun t d => if t = tA ∧ d = dT then some 1 else none
    pending := fun t d => if t = tA ∧ d = dT then 3 else 0
    lastDrained := fun _ => none
    now := 100000000000
    jobQueryBatchSize := 0 }

/-- Witness for C3: with jobQueryBatchSize 0 the job budget is exhausted when
tenant A (pending 3) is reached, and the returned map still credits it 1. -/
theorem c3_exhausted_budget_reserves_one_witness :
    1 ≤ getCount (GetRouterPickupJobs c3Input) tA := by
  refine c3_exhausted_budget_reserves_one c3Input [] [] tA false 1 ?_ ?_ ?_ ?_
  · norm_num [annotatedList, splitByDrain, getLastDrainedTimestamp, c3Input, tA, dT]
  · norm_num [c3Input, tA, dT]
  · norm_num [c3Input, tA, dT]
  · left
    norm_num [pass1Run, pass1, initState, c3Input]

/-- C4: in pass 1, for a tenant with nonzero observed latency the pick is the
truncation of `min (rate * timeGiven / 1s) (runningTimeCounter / latency)`,
floored at 1 with the unreliable flag set when it falls below 1, and clamped
at `max 0 pending`; an unreliable tenant contributes a timeRequired of 0 to
the running time budget; and for every tenant, those with zero latency
included, the pick never exceeds `max 0 pending`. -/
theorem c4_pass1_pick_characterisation :
    ∀ (timeGiven : ℤ) (rate latency : ℚ) (pending : ℤ) (rtc : ℚ),
      (latency ≠ 0 →
        pass1Pick timeGiven rate latency pending rtc =
          ((if goTrunc (min (rate * (timeGiven : ℚ) / nsPerSec) (rtc / latency)) < 1 then
              min 1 (max 0 pending)
            else
              min (goTrunc (min (rate * (timeGiven : ℚ) / nsPerSec) (rtc / latency)))
                (max 0 pending)),
           decide (goTrunc (min (rate * (timeGiven : ℚ) / nsPerSec) (rtc / latency)) < 1))) ∧
      pass1TimeRequired (pass1Pick timeGiven rate latency pending rtc).1 true latency = 0 ∧
      (pass1Pick timeGiven rate latency pending rtc).1 ≤ max 0 pending := by
  intro tg rate lat pe rtc
  refine ⟨fun h => ?_, by simp [pass1TimeRequired], ?_⟩
  · simp only [pass1Pick, if_pos h]
    by_cases h1 : goTrunc (min (rate * (tg : ℚ) / nsPerSec) (rtc / lat)) < 1
    · simp only [if_pos h1, decide_eq_true h1]
      split_ifs with h2 <;> simp only [Prod.mk.injEq] <;> exact ⟨by omega, trivial⟩
    · simp only [if_neg h1, decide_eq_false h1]
      split_ifs with h2 <;> simp only [Prod.mk.injEq] <;> exact ⟨by omega, trivial⟩
  · by_cases h : lat ≠ 0
    · simp only [pass1Pick, if_pos h]
      by_cases h1 : goTrunc (min (rate * (tg : ℚ) / nsPerSec) (rtc / lat)) < 1
      · rw [if_pos h1]
        split_ifs with h2
        · show max pe 0 ≤ max 0 pe
          omega
        · show (1 : ℤ) ≤ max 0 pe
          omega
      · rw [if_neg h1]
        split_ifs with h2
        · show max pe 0 ≤ max 0 pe
          omega
        · show goTrunc (min (rate * (tg : ℚ) / nsPerSec) (rtc / lat)) ≤ max 0 pe
          omega
    · simp only [pass1Pick, if_neg h]
      show min (goTrunc (rate * (tg : ℚ) / nsPerSec)) pe ≤ max 0 pe
      have hm := min_le_right (goTrunc (rate * (tg : ℚ) / nsPerSec)) pe
      omega

def c4TimeGiven : ℤ := 1000000000

/-- Witness for C4 at timeGiven 1 s, rate 2/s, latency 1 s, pending 5 and a
running time counter of 13 s: the pick is `min (trunc (min 2 13)) 5 = 2`,
reliable, and an unreliable tenant would contribute no time. -/
theorem c4_pass1_pick_characterisation_witness :
    pass1Pick c4TimeGiven 2 1 5 13 = (2, false) ∧ pass1TimeRequired 2 true 1 = 0 := by
  have h := c4_pass1_pick_characterisation c4TimeGiven 2 1 5 13
  refine ⟨?_, h.2.1⟩
  rw [h.1 (by norm_num)]
  norm_num [goTrunc, nsPerSec, c4TimeGiven, min_def, max_def, Prod.ext_iff,
    decide_eq_false_iff_not]

theorem splitByDrain_eq_filter (now rto : ℤ) (ld : String → Option ℤ) :
    ∀ l : List String,
      splitByDrain now rto ld l =
        (l.filter (prioP now rto ld), l.filter (fun t => ! prioP now rto ld t)) := by
  intro l
  induction l with
  | nil => simp [splitByDrain]
  | cons t ts ih =>
    simp only [splitByDrain, ih]
    by_cases h : now - getLastDrainedTimestamp ld t < 10 * rto
    · have hp : prioP now rto ld t = false := by
        simp only [prioP, decide_eq_false_iff_not, not_le]
        omega
      simp [h, hp, List.filter_cons]
    · have hp : prioP now rto ld t = true := by
        simp only [prioP, decide_eq_true_eq]
        omega
      simp [h, hp, List.filter_cons]

/-- C5: GetRouterPickupJobs partitions the latency-sorted tenant list,
preserving its order, into the prioritised tenants — those whose last drained
timestamp for destType lies at least 10*routerTimeOut in the past, a class
that contains every never-drained tenant once 10*routerTimeOut ≤ now —
followed by the deprioritised rest; pass 1 walks exactly that concatenation,
giving the prioritised tenants (flag false) timeGiven = boostedOf
routerTimeOut (the truncated 1.3 * routerTimeOut) and the deprioritised
tenants (flag true) timeGiven = routerTimeOut. -/
theorem c5_priority_partition (inp : PlannerInput) :
    splitByDrain inp.now inp.routerTimeOut inp.lastDrained inp.sortedLatencyList =
      (inp.sortedLatencyList.filter (prioP inp.now inp.routerTimeOut inp.lastDrained),
       inp.sortedLatencyList.filter (fun t => ! prioP inp.now inp.routerTimeOut inp.lastDrained t)) ∧
    annotatedList inp =
      (inp.sortedLatencyList.filter (prioP inp.now inp.routerTimeOut inp.lastDrained)).map
          (fun t => (t, false)) ++
        (inp.sortedLatencyList.filter
            (fun t => ! prioP inp.now inp.routerTimeOut inp.lastDrained t)).map
          (fun t => (t, true)) ∧
    (∀ t : String, prioP inp.now inp.routerTimeOut inp.lastDrained t = true ↔
        10 * inp.routerTimeOut ≤ inp.now - getLastDrainedTimestamp inp.lastDrained t) ∧
    (∀ t : String, inp.lastDrained t = none → 10 * inp.routerTimeOut ≤ inp.now →
        prioP inp.now inp.routerTimeOut inp.lastDrained t = true) ∧
    (∀ dep : Bool, pass1TimeGiven (boostedOf inp.routerTimeOut) inp.routerTimeOut dep =
        if dep then inp.routerTimeOut else boostedOf inp.routerTimeOut) := by
  refine ⟨splitByDrain_eq_filter _ _ _ _, ?_, ?_, ?_, fun dep => rfl⟩
  · rw [annotatedList, splitByDrain_eq_filter]
  · intro t
    simp [prioP]
  · intro t h1 h2
    simp only [prioP, getLastDrainedTimestamp, h1, Option.getD_none, decide_eq_true_eq]
    omega

/-- Witness for C5: at `c1Input`, tenant A was never drained and
10*routerTimeOut ≤ now, so it lands in the prioritised class. -/
theorem c5_priority_partition_witness :
    prioP c1Input.now c1Input.routerTimeOut c1Input.lastDrained tA = true := by
  refine (c5_priority_partition c1Input).2.2.2.1 tA rfl ?_
  norm_num [c1Input]

/-- C6: for a status batch whose JobIDs partition across two datasets,
UpdateJobStatus streams each dataset's partition through its own bulk-copy
inside the one transaction modelled by the Except result: when both copies
succeed it commits exactly the two partitions, and when the second dataset's
stream fails the whole transaction rolls back — the error result carries no
rows, so neither dataset's rows persist — and the failing error is returned
to the caller. -/
theorem c6_update_job_status_two_datasets (ranges : List dataSetRangeM)
    (copyOutcome : String → Except String Unit) (statuses : List JobStatusM)
    (t1 t2 : String) (p1 p2 : List JobStatusM)
    (hparts : statusPartitions ranges statuses = [(t1, p1), (t2, p2)])
    (h1 : copyOutcome t1 = Except.ok ()) :
    (∀ e : String, copyOutcome t2 = Except.error e →
        UpdateJobStatus ranges copyOutcome statuses = Except.error e) ∧
    (copyOutcome t2 = Except.ok () →
        UpdateJobStatus ranges copyOutcome statuses = Except.ok [(t1, p1), (t2, p2)]) := by
  constructor
  · intro e h2
    rw [UpdateJobStatus, hparts]
    simp only [copyAll, h1, h2]
  · intro h2
    rw [UpdateJobStatus, hparts]
    simp only [copyAll, h1, h2]
    rfl

def sTbl1 : String := "tt_job_status_1"

def sTbl2 : String := "tt_job_status_2"

def wRanges : List dataSetRangeM :=
  [{ minJobID := 1, maxJobID := 10, statusTable := sTbl1 },
   { minJobID := 10, maxJobID := 20, statusTable := sTbl2 }]

def sSucceeded : String := "succeeded"

def sAborted : String := "aborted"

def errExec : String := "exec failed"

def code200 : String := "200"

def code400 : String := "400"

def wStatus1 : JobStatusM :=
  { JobID := 1, JobState := sSucceeded, AttemptNum := 1, ErrorCode := code200 }

def wStatus2 : JobStatusM :=
  { JobID := 11, JobState := sAborted, AttemptNum := 1, ErrorCode := code400 }

def wCopyFail (tbl : String) : Except String Unit :=
  if tbl = sTbl2 then Except.error errExec else Except.ok ()

/-- Witness for C6, mirroring the repository's UpdateJobStatus test: statuses
for jobs 1 and 11 split across the ranges 1–10 and 10–20, the second
bulk-copy fails with "exec failed", and that error is returned with no rows
committed. -/
theorem c6_update_job_status_two_datasets_witness :
    UpdateJobStatus wRanges wCopyFail [wStatus1, wStatus2] = Except.error errExec := by
  refine (c6_update_job_status_two_datasets wRanges wCopyFail [wStatus1, wStatus2] sTbl1 sTbl2
    [wStatus1] [wStatus2] ?_ ?_).1 errExec ?_
  · decide
  · rfl
  · rfl

theorem retry_each_row_mem (rowOutcome : JobM → Except RowFailure Unit) (jobs : List JobM)
    (j : JobM) (f : RowFailure) (hj : j ∈ jobs)
    (hrow : rowOutcome { uuid := j.uuid, payload := stripNulSeq j.payload } = Except.error f) :
    (j.uuid, classifyRowError f) ∈ retryEachRow rowOutcome jobs := by
  induction jobs with
  | nil => cases hj
  | cons j0 rest ih =>
    rcases List.mem_cons.mp hj with h | h
    · subst h
      simp only [retryEachRow, hrow]
      exact List.mem_cons_self _ _
    · cases hr : rowOutcome { uuid := j0.uuid, payload := stripNulSeq j0.payload } with
      | ok u =>
        simp only [retryEachRow, hr]
        exact ih h
      | error f0 =>
        simp only [retryEachRow, hr]
        exact List.mem_cons_of_mem _ (ih h)

theorem retry_each_row_partitions (rowOutcome : JobM → Except RowFailure Unit)
    (jobs : List JobM) (u : String) :
    u ∈ jobs.map JobM.uuid ↔
      (u ∈ (retryEachRow rowOutcome jobs).map Prod.fst ∨
       u ∈ storedRowUUIDs rowOutcome jobs) := by
  induction jobs with
  | nil => simp [retryEachRow, storedRowUUIDs]
  | cons j0 rest ih =>
    cases hr : rowOutcome { uuid := j0.uuid, payload := stripNulSeq j0.payload } with
    | ok v =>
      simp only [retryEachRow, storedRowUUIDs, hr, List.map_cons, List.mem_cons, ih]
      tauto
    | error f0 =>
      simp only [retryEachRow, storedRowUUIDs, hr, List.map_cons, List.mem_cons, ih]
      tauto

/-- C7: when the bulk store fails, every job is retried through the per-row
insert over its NUL-stripped payload, and a row rejected with the pq
invalid-text-representation class 22P02 is reported as the string
"Invalid JSON" under that job's UUID; and for every bulk outcome the UUID
keys of the returned diagnostics map together with the successfully stored
UUIDs are exactly the input UUIDs. -/
theorem c7_store_with_retry_each (bulkOutcome : Except String Unit)
    (rowOutcome : JobM → Except RowFailure Unit) (jobs : List JobM) :
    (∀ (e : String) (j : JobM) (f : RowFailure), bulkOutcome = Except.error e → j ∈ jobs →
        rowOutcome { uuid := j.uuid, payload := stripNulSeq j.payload } = Except.error f →
        f.code = invalidTextRepClass →
        (j.uuid, invalidJSONMsg) ∈ StoreWithRetryEach bulkOutcome rowOutcome jobs) ∧
    (∀ u : String, u ∈ jobs.map JobM.uuid ↔
        (u ∈ (StoreWithRetryEach bulkOutcome rowOutcome jobs).map Prod.fst ∨
         u ∈ storedUUIDs bulkOutcome rowOutcome jobs)) := by
  constructor
  · intro e j f hb hj hrow hcode
    rw [hb]
    show (j.uuid, invalidJSONMsg) ∈ retryEachRow rowOutcome jobs
    have h := retry_each_row_mem rowOutcome jobs j f hj hrow
    rwa [classifyRowError, if_pos hcode] at h
  · intro u
    cases hb : bulkOutcome with
    | ok v =>
      simp [StoreWithRetryEach, storedUUIDs]
    | error e =>
      show u ∈ jobs.map JobM.uuid ↔
        (u ∈ (retryEachRow rowOutcome jobs).map Prod.fst ∨ u ∈ storedRowUUIDs rowOutcome jobs)
      exact retry_each_row_partitions rowOutcome jobs u

-- Ordering lemmas for the level-wise numeric ordering of section 4.1.

theorem idxLtB_nil_right : ∀ l : List ℕ, idxLtB l [] = false
  | [] => rfl
  | _ :: xs => by
    simp only [idxLtB]
    exact idxLtB_nil_right xs

theorem idxNilLt_of_pos (zs : List ℕ) (hz : ∀ x ∈ zs, 1 ≤ x) (hne : zs ≠ []) :
    idxNilLt zs = true := by
  cases zs with
  | nil => cases hne rfl
  | cons z zs2 =>
    have h1 : 1 ≤ z := hz z (List.mem_cons_self _ _)
    simp only [idxNilLt]
    rw [if_pos (by omega : 0 < z)]

theorem idxLtB_append_one (bl : List ℕ) : idxLtB bl (bl ++ [1]) = true := by
  induction bl with
  | nil => decide
  | cons x xs ih =>
    simp only [List.cons_append, idxLtB]
    rw [if_neg (lt_irrefl x), if_neg (lt_irrefl x)]
    exact ih

theorem idxLtB_incLast (bl : List ℕ) (h : bl ≠ []) : idxLtB bl (incLast bl) = true := by
  induction bl with
  | nil => cases h rfl
  | cons x xs ih =>
    cases xs with
    | nil =>
      simp only [incLast, idxLtB]
      rw [if_pos (by omega : x < x + 1)]
    | cons y ys =>
      simp only [incLast, idxLtB]
      rw [if_neg (lt_irrefl x), if_neg (lt_irrefl x)]
      exact ih (by simp)

theorem idxLtB_append_one_lt_of_length_eq (bl : List ℕ) :
    ∀ al : List ℕ, bl.length = al.length → idxLtB bl al = true →
      idxLtB (bl ++ [1]) al = true := by
  induction bl with
  | nil =>
    intro al hlen hlt
    cases al with
    | nil => simp [idxLtB, idxNilLt] at hlt
    | cons a as => simp at hlen
  | cons x xs ih =>
    intro al hlen hlt
    cases al with
    | nil => simp at hlen
    | cons y ys =>
      simp only [List.cons_append, idxLtB] at hlt ⊢
      by_cases h1 : x < y
      · rw [if_pos h1]
      · rw [if_neg h1] at hlt ⊢
        by_cases h2 : y < x
        · rw [if_pos h2] at hlt
          simp at hlt
        · rw [if_neg h2] at hlt ⊢
          exact ih ys (by simpa using hlen) hlt

theorem idxLtB_incLast_lt_of_longer (bl : List ℕ) :
    ∀ al : List ℕ, al.length < bl.length → idxLtB bl al = true →
      idxLtB (incLast bl) al = true := by
  induction bl with
  | nil => intro al hlen hlt; simp at hlen
  | cons x xs ih =>
    intro al hlen hlt
    cases al with
    | nil =>
      rw [idxLtB_nil_right] at hlt
      cases hlt
    | cons y ys =>
      cases xs with
      | nil => simp at hlen
      | cons x2 xs2 =>
        simp only [incLast, idxLtB] at hlt ⊢
        by_cases h1 : x < y
        · rw [if_pos h1]
        · rw [if_neg h1] at hlt ⊢
          by_cases h2 : y < x
          · rw [if_pos h2] at hlt
            simp at hlt
          · rw [if_neg h2] at hlt ⊢
            exact ih ys (by simpa using hlen) hlt

theorem idxLtB_append_one_lt_of_shorter (u : List ℕ) :
    ∀ v : List ℕ, u.length < v.length → (∀ x ∈ v, 1 ≤ x) → idxLtB u v = true →
      v ≠ u ++ [1] → idxLtB (u ++ [1]) v = true := by
  induction u with
  | nil =>
    intro v hlen hv hlt hne
    cases v with
    | nil => simp at hlen
    | cons z zs =>
      have hz : 1 ≤ z := hv z (List.mem_cons_self _ _)
      simp only [List.nil_append, idxLtB]
      by_cases h1 : 1 < z
      · rw [if_pos h1]
      · rw [if_neg h1, if_neg (by omega : ¬ z < 1)]
        have hz1 : z = 1 := by omega
        subst hz1
        show idxNilLt zs = true
        refine idxNilLt_of_pos zs (fun x hx => hv x (List.mem_cons_of_mem _ hx)) ?_
        intro hzs
        exact hne (by rw [hzs]; rfl)
  | cons x xs ih =>
    intro v hlen hv hlt hne
    cases v with
    | nil => simp at hlen
    | cons y ys =>
      simp only [List.cons_append, idxLtB] at hlt ⊢
      by_cases h1 : x < y
      · rw [if_pos h1]
      · rw [if_neg h1] at hlt ⊢
        by_cases h2 : y < x
        · rw [if_pos h2] at hlt
          simp at hlt
        · rw [if_neg h2] at hlt ⊢
          have hxy : x = y := by omega
          refine ih ys (by simpa using hlen) (fun a ha => hv a (List.mem_cons_of_mem _ ha)) hlt ?_
          intro hcontra
          subst hxy
          exact hne (by rw [hcontra, List.cons_append])

theorem idxLtB_append_one_lt_top (bl al : List ℕ) (hbl : bl ≠ []) (hlen : bl.length < al.length)
    (hval : ∀ x ∈ al.tail, 1 ≤ x) (hlt : idxLtB bl al = true) (hne : al ≠ bl ++ [1]) :
    idxLtB (bl ++ [1]) al = true := by
  cases bl with
  | nil => cases hbl rfl
  | cons b0 bs =>
    cases al with
    | nil => simp at hlen
    | cons a0 as =>
      simp only [List.cons_append, idxLtB] at hlt ⊢
      by_cases h1 : b0 < a0
      · rw [if_pos h1]
      · rw [if_neg h1] at hlt ⊢
        by_cases h2 : a0 < b0
        · rw [if_pos h2] at hlt
          simp at hlt
        · rw [if_neg h2] at hlt ⊢
          have hba : b0 = a0 := by omega
          refine idxLtB_append_one_lt_of_shorter bs as (by simpa using hlen) hval hlt ?_
          intro hcontra
          subst hba
          exact hne (by rw [hcontra, List.cons_append])

-- Index string constants of the test vectors.

def i1 : String := "1"

def i2 : String := "2"

def i9 : String := "9"

def i10 : String := "10"

def i1_1 : String := "1_1"

def i1_2 : String := "1_2"

def i2_1 : String := "2_1"

def i9_1 : String := "9_1"

def i0_1 : String := "0_1"

def i0_2 : String := "0_2"

def i0_1_1 : String := "0_1_1"

def i0_1_2 : String := "0_1_2"

def i1_1_1_1 : String := "1_1_1_1"

def iBang : String := "1_1_!_1"

/-- C8 (counterexample): the level-count rules send the consecutive valid
pair ("1", "1_1") to "1_1", the after argument itself, so the computed index
does not sort strictly below after under the level-wise numeric ordering. -/
theorem c8_compute_insert_idx_cex :
    computeInsertIdx i1 i1_1 = Except.ok i1_1 ∧ parseIdx i1 = some [1] ∧
    parseIdx i1_1 = some [1, 1] ∧ idxLtB [1] [1, 1] = true ∧ idxLtB [1, 1] [1, 1] = false := by
  refine ⟨rfl, by decide, by decide, by decide, by decide⟩

/-- C8 (amended): computeInsertIdx maps the five listed input pairs to
exactly the listed outputs with no error, and for every valid consecutive
pair — both arguments parse as non-empty numeric level lists whose levels
beyond the first are positive, with before strictly below after — the result
sorts strictly above before, and it also sorts strictly below after except
in the single case forced by the counterexample, namely when after is
before with a level 1 appended (then the result equals after). -/
theorem c8_compute_insert_idx_amended :
    (computeInsertIdx i1 i2 = Except.ok i1_1 ∧ computeInsertIdx i1_1 i2 = Except.ok i1_2 ∧
     computeInsertIdx i1 i2_1 = Except.ok i1_1 ∧
     computeInsertIdx i0_1_1 i0_2 = Except.ok i0_1_2 ∧
     computeInsertIdx i9 i10 = Except.ok i9_1) ∧
    ∀ (before after : String) (bl al : List ℕ),
      parseIdx before = some bl → parseIdx after = some al → bl ≠ [] →
      (∀ x ∈ al.tail, 1 ≤ x) → idxLtB bl al = true → al ≠ bl ++ [1] →
      computeInsertIdx before after = Except.ok (renderIdx (computeInsertVals bl al)) ∧
      idxLtB bl (computeInsertVals bl al) = true ∧
      idxLtB (computeInsertVals bl al) al = true := by
  constructor
  · exact ⟨rfl, rfl, rfl, rfl, rfl⟩
  · intro before after bl al hb ha hbl hval hlt hne
    refine ⟨?_, ?_, ?_⟩
    · rw [computeInsertIdx, hb, ha]
    · rw [computeInsertVals]
      split_ifs with h
      · exact idxLtB_incLast bl hbl
      · exact idxLtB_append_one bl
    · rw [computeInsertVals]
      split_ifs with h
      · exact idxLtB_incLast_lt_of_longer bl al h hlt
      · rcases lt_or_eq_of_le (not_lt.mp h) with h2 | h2
        · exact idxLtB_append_one_lt_top bl al hbl h2 hval hlt hne
        · exact idxLtB_append_one_lt_of_length_eq bl al h2 hlt

/-- Witness for C8 at the pair ("1", "2"): the result "1_1" sorts strictly
between [1] and [2]. -/
theorem c8_compute_insert_idx_amended_witness :
    computeInsertIdx i1 i2 = Except.ok (renderIdx (computeInsertVals [1] [2])) ∧
    idxLtB [1] (computeInsertVals [1] [2]) = true ∧
    idxLtB (computeInsertVals [1] [2]) [2] = true :=
  c8_compute_insert_idx_amended.2 i1 i2 [1] [2] (by decide) (by decide) (by decide) (by decide)
    (by decide) (by decide)

theorem parseLevels_length :
    ∀ (ps : List (List Char)) (l : List ℕ), parseLevels ps = some l → l.length = ps.length := by
  intro ps
  induction ps with
  | nil =>
    intro l h
    simp only [parseLevels, Option.some.injEq] at h
    subst h
    rfl
  | cons p ps2 ih =>
    intro l h
    simp only [parseLevels] at h
    cases hp : parseNatChars p with
    | none =>
      rw [hp] at h
      exact Option.noConfusion h
    | some n =>
      cases hl : parseLevels ps2 with
      | none =>
        rw [hp, hl] at h
        exact Option.noConfusion h
      | some ns =>
        rw [hp, hl] at h
        obtain rfl := Option.some.injEq _ _ |>.mp h |>.symm
        simp [ih ns hl]

theorem parseIdx_length (s : String) (l : List ℕ) (h : parseIdx s = some l) :
    l.length = levelCount s := by
  rw [levelCount]
  exact parseLevels_length _ _ h

/-- C9: computeIdxForClusterMigration fails exactly when the dataset list is
empty, the target index does not parse as numeric levels, the target has
more than two levels, or the target index equals an existing index of the
nested two-level form; otherwise it emits 0_1 when the first existing
dataset's index has a single level and 0_(k+1) for the maximal second level
k among existing datasets with first level 0.  The conjunction also pins
the repository's test vectors: the two successful cases and the five error
cases. -/
theorem c9_cluster_migration_idx :
    (computeIdxForClusterMigration [i1] i1 = Except.ok i0_1 ∧
     computeIdxForClusterMigration [i0_1, i1, i2] i1 = Except.ok i0_2 ∧
     computeIdxForClusterMigration [i1_1] i1_1 = Except.error errClash ∧
     computeIdxForClusterMigration [i1, i1_1] i1_1 = Except.error errClash ∧
     computeIdxForClusterMigration [] i1_1 = Except.error errEmptyList ∧
     computeIdxForClusterMigration [] i1_1_1_1 = Except.error errEmptyList ∧
     computeIdxForClusterMigration [] iBang = Except.error errEmptyList) ∧
    (∀ (dList : List String) (after : String),
      (∃ e, computeIdxForClusterMigration dList after = Except.error e) ↔
        (dList = [] ∨ parseIdx after = none ∨ 2 < levelCount after ∨
         ∃ d ∈ dList, d = after ∧ levelCount d = 2)) ∧
    (∀ (dList : List String) (after : String) (al : List ℕ),
      dList ≠ [] → parseIdx after = some al → ¬ 2 < al.length →
      ¬ (∃ d ∈ dList, d = after ∧ levelCount d = 2) →
      computeIdxForClusterMigration dList after =
        (if levelCountHead dList = 1 then Except.ok (renderIdx [0, 1])
         else Except.ok (renderIdx [0, maxSecondLevel dList + 1]))) := by
  refine ⟨⟨rfl, rfl, rfl, rfl, rfl, rfl, rfl⟩, ?_, ?_⟩
  · intro dList after
    constructor
    · rintro ⟨e, he⟩
      by_cases h0 : dList = []
      · exact Or.inl h0
      by_cases hex : ∃ al, parseIdx after = some al
      case neg =>
        refine Or.inr (Or.inl ?_)
        cases hq : parseIdx after with
        | none => rfl
        | some al => exact absurd ⟨al, hq⟩ hex
      obtain ⟨al, hal⟩ := hex
      simp only [computeIdxForClusterMigration, if_neg h0, hal] at he
      by_cases h2 : 2 < al.length
      · refine Or.inr (Or.inr (Or.inl ?_))
        rw [← parseIdx_length after al hal]
        exact h2
      · rw [if_neg h2] at he
        by_cases h3 : ∃ d ∈ dList, d = after ∧ levelCount d = 2
        · exact Or.inr (Or.inr (Or.inr h3))
        · rw [if_neg h3] at he
          split_ifs at he <;> exact Except.noConfusion he
    · intro h
      by_cases h0 : dList = []
      · exact ⟨errEmptyList, by rw [computeIdxForClusterMigration, if_pos h0]⟩
      · cases hq : parseIdx after with
        | none =>
          refine ⟨errBadIdx, ?_⟩
          simp only [computeIdxForClusterMigration, if_neg h0, hq]
        | some al =>
          have hlen : al.length = levelCount after := parseIdx_length after al hq
          by_cases h2 : 2 < al.length
          · refine ⟨errTooManyLevels, ?_⟩
            simp only [computeIdxForClusterMigration, if_neg h0, hq, if_pos h2]
          · rcases h with h | h | h | h
            · exact absurd h h0
            · rw [hq] at h
              exact Option.noConfusion h
            · exact absurd h (by omega)
            · refine ⟨errClash, ?_⟩
              simp only [computeIdxForClusterMigration, if_neg h0, hq, if_neg h2, if_pos h]
  · intro dList after al h0 hp h2 h3
    simp only [computeIdxForClusterMigration, if_neg h0, hp, if_neg h2, if_neg h3]

/-- Witness for C9: a dataset list headed by the single-level index "1" and
target "9" passes every validity check and receives the import index 0_1. -/
theorem c9_cluster_migration_idx_witness :
    computeIdxForClusterMigration [i1, i2] i9 = Except.ok (renderIdx [0, 1]) := by
  have h := c9_cluster_migration_idx.2.2 [i1, i2] i9 [9] (by decide) rfl (by decide) (by decide)
  rw [h]
  rfl

-- Concrete jobs for the C7 witness, mirroring the StoreWithRetryEach test:
-- the bulk store fails, the first job's row insert succeeds and the second
-- job's row insert is rejected with the invalid-text-representation class.

def uuidGood : String := "uuid-good"

def uuidBad : String := "a362c501-c38e-4aee-ae61-4a3b095ebcab"

def payloadGood : String := "payload-good"

def payloadBad : String := "payload-bad-json"

def errBulk : String := "failed to prepare"

def errSyntax : String := "invalid input syntax for type json"

def wBadFailure : RowFailure := { code := invalidTextRepClass, message := errSyntax }

def wRow (j : JobM) : Except RowFailure Unit :=
  if j.uuid = uuidBad then Except.error wBadFailure else Except.ok ()

def wJobs : List JobM :=
  [{ uuid := uuidGood, payload := payloadGood }, { uuid := uuidBad, payload := payloadBad }]

/-- Witness for C7: with the bulk store failing and the second job's row
insert rejected with class 22P02, the diagnostics map holds "Invalid JSON"
under that job's UUID while the first job's UUID is accounted for among the
error keys or the stored UUIDs. -/
theorem c7_store_with_retry_each_witness :
    (uuidBad, invalidJSONMsg) ∈ StoreWithRetryEach (Except.error errBulk) wRow wJobs ∧
    (uuidGood ∈ (StoreWithRetryEach (Except.error errBulk) wRow wJobs).map Prod.fst ∨
      uuidGood ∈ storedUUIDs (Except.error errBulk) wRow wJobs) := by
  constructor
  · exact (c7_store_with_retry_each (Except.error errBulk) wRow wJobs).1 errBulk
      { uuid := uuidBad, payload := payloadBad } wBadFailure rfl (by decide) rfl rfl
  · exact ((c7_store_with_retry_each (Except.error errBulk) wRow wJobs).2 uuidGood).mp
      (by decide)
